import Mathlib

/-!
Verification of the resume-screening pipeline: a shallow embedding of
`src/utils.py`, `src/models.py`, `src/parsing_agent.py`, `src/evaluation_agent.py`,
`src/agent.py` and `app.py`, followed by theorems settling the spec claims.

Python strings are modelled as `List Char`.  The LLM backend is an external
collaborator and is modelled as an oracle argument: each call either raises
(transport error) or returns a response object.  Python exceptions are
modelled with `Except`: a function whose Python counterpart can raise to its
caller returns `Except PyStr A`, and a `try/except` block is an explicit
`match` on the body's `Except` result.
-/

namespace ResumeScreen

/-- Model of a Python `str`: a list of characters. -/
abbrev PyStr := List Char

/-- Whitespace set used by `str.strip`, `str.split` and the regex class `\s`
(ASCII subset: space, tab, newline, carriage return, vertical tab, form feed).
Inputs in this development are ASCII, where this matches Python exactly. -/
def isWs (c : Char) : Bool :=
  c == ' ' || c == '\t' || c == '\n' || c == '\r' || c == '\x0b' || c == '\x0c'

/-- Model of Python `str.lstrip()`. -/
def lstrip (s : PyStr) : PyStr := s.dropWhile isWs

/-- Model of Python `str.rstrip()`. -/
def rstrip (s : PyStr) : PyStr := (s.reverse.dropWhile isWs).reverse

/-- Model of Python `str.strip()`. -/
def strip (s : PyStr) : PyStr := rstrip (lstrip s)

/-- Helper for `splitLines`: accumulates the current line (reversed). -/
def splitLinesGo : PyStr → PyStr → List PyStr
  | [], acc => [acc.reverse]
  | c :: rest, acc =>
    if c = '\n' ∨ c = '\r' then
      acc.reverse :: (if rest = [] then [] else splitLinesGo rest [])
    else
      splitLinesGo rest (c :: acc)

/-- Model of Python `str.splitlines()`.  Both `\n` and `\r` are treated as
line boundaries; a `\r\n` pair therefore yields one extra empty line, which
is harmless here because every call site filters out blank lines. -/
def splitLines : PyStr → List PyStr
  | [] => []
  | s => splitLinesGo s []

/-- Model of Python `str.find(c)` for a single character, as an `Option`
(`none` models the `-1` return). -/
def pyFind : PyStr → Char → Option Nat
  | [], _ => none
  | a :: s, c => if a = c then some 0 else (pyFind s c).map (· + 1)

/-- Model of Python `str.rfind(c)` for a single character. -/
def pyRFind (s : PyStr) (c : Char) : Option Nat :=
  (pyFind s.reverse c).map (fun i => s.length - 1 - i)

/-- Model of Python slicing `s[i:j]`. -/
def pySlice (s : PyStr) (i j : Nat) : PyStr := (s.take j).drop i

/-- Number of words of `s`, i.e. `len(s.split())` in Python. -/
def wordCountAux : PyStr → Bool → Nat
  | [], _ => 0
  | c :: cs, inWord =>
    if isWs c then wordCountAux cs false
    else (if inWord then 0 else 1) + wordCountAux cs true

/-- Model of Python `len(s.split())`. -/
def wordCount (s : PyStr) : Nat := wordCountAux s false

/-- Model of Python `sep.join(xs)` with separator `"\n"`. -/
def joinNl (xs : List PyStr) : PyStr := (xs.intersperse ['\n']).flatten

/-- Model of Python `" ".join(xs)`. -/
def joinSpace (xs : List PyStr) : PyStr := (xs.intersperse [' ']).flatten

/-- Model of `os.path.splitext(p)[0]` for a plain file name (no directory
separators): everything before the last dot, except that a name consisting
of leading dots only keeps its dots. -/
def splitextBase (p : PyStr) : PyStr :=
  match pyRFind p '.' with
  | none => p
  | some i => if (p.take i).all (· = '.') then p else p.take i

/-! ## JSON values and a model of `json.loads`

The JSON number grammar is restricted to integers in this model (no
fractional or exponent parts); every JSON input appearing in the claims
uses integer numerics only. -/

/-- A parsed JSON value. -/
inductive JValue where
  | jnull : JValue
  | jbool (b : Bool) : JValue
  | jnum (n : Int) : JValue
  | jstr (s : PyStr) : JValue
  | jarr (xs : List JValue) : JValue
  | jobj (fields : List (PyStr × JValue)) : JValue

/-- JSON whitespace (exactly the four characters `json.loads` skips). -/
def isJsonWs (c : Char) : Bool := c == ' ' || c == '\t' || c == '\n' || c == '\r'

/-- Skip JSON whitespace. -/
def skipJWs (s : PyStr) : PyStr := s.dropWhile isJsonWs

/-- Parse the body of a JSON string after the opening quote; returns the
string content and the remaining input.  Supports the simple escapes; the
`\uXXXX` escape is outside the model. -/
def parseJStr : PyStr → Option (PyStr × PyStr)
  | [] => none
  | '"' :: r => some ([], r)
  | '\\' :: e :: r => do
    let c ← match e with
      | '"' => some '"'
      | '\\' => some '\\'
      | '/' => some '/'
      | 'n' => some '\n'
      | 't' => some '\t'
      | 'r' => some '\r'
      | 'b' => some '\x08'
      | 'f' => some '\x0c'
      | _ => none
    let (cs, rest) ← parseJStr r
    some (c :: cs, rest)
  | c :: r =>
    if c.val < 32 then none
    else do
      let (cs, rest) ← parseJStr r
      some (c :: cs, rest)

/-- Take a maximal run of decimal digits. -/
def takeDigits : PyStr → (List Char × PyStr)
  | [] => ([], [])
  | c :: s =>
    if c.isDigit then
      let (d, r) := takeDigits s
      (c :: d, r)
    else ([], c :: s)

/-- Numeric value of a digit run. -/
def digitsVal (ds : List Char) : Nat :=
  ds.foldl (fun a c => a * 10 + (c.toNat - 48)) 0

/-- Parse a JSON integer literal (rejecting leading zeros and any
fractional/exponent continuation, which are outside the numeric model). -/
def parseNum (s : PyStr) : Option (Int × PyStr) :=
  let (neg, s1) : Bool × PyStr := match s with
    | '-' :: r => (true, r)
    | _ => (false, s)
  match takeDigits s1 with
  | ([], _) => none
  | (ds, r) =>
    if 1 < ds.length ∧ ds.headI = '0' then none
    else
      match r with
      | c :: _ =>
        if c = '.' ∨ c = 'e' ∨ c = 'E' then none
        else some (if neg then -(digitsVal ds : Int) else (digitsVal ds : Int), r)
      | [] => some (if neg then -(digitsVal ds : Int) else (digitsVal ds : Int), [])

mutual

/-- Fuel-based recursive-descent parser for one JSON value. -/
def parseJValue : Nat → PyStr → Option (JValue × PyStr)
  | 0, _ => none
  | fuel + 1, s =>
    match s with
    | 'n' :: 'u' :: 'l' :: 'l' :: r => some (.jnull, r)
    | 't' :: 'r' :: 'u' :: 'e' :: r => some (.jbool true, r)
    | 'f' :: 'a' :: 'l' :: 's' :: 'e' :: r => some (.jbool false, r)
    | '"' :: r => (parseJStr r).map (fun p => (.jstr p.1, p.2))
    | '[' :: r =>
      match skipJWs r with
      | ']' :: r2 => some (.jarr [], r2)
      | r1 => (parseJElems fuel r1).map (fun p => (.jarr p.1, p.2))
    | '{' :: r =>
      match skipJWs r with
      | '}' :: r2 => some (.jobj [], r2)
      | r1 => (parseJMembers fuel r1).map (fun p => (.jobj p.1, p.2))
    | _ => (parseNum s).map (fun p => (.jnum p.1, p.2))

/-- Parse the non-empty element list of a JSON array (after `[` and any
whitespace), up to and including the closing `]`. -/
def parseJElems : Nat → PyStr → Option (List JValue × PyStr)
  | 0, _ => none
  | fuel + 1, s => do
    let (v, rest) ← parseJValue fuel s
    match skipJWs rest with
    | ',' :: r2 => do
      let (vs, fin) ← parseJElems fuel (skipJWs r2)
      some (v :: vs, fin)
    | ']' :: r2 => some ([v], r2)
    | _ => none

/-- Parse the non-empty member list of a JSON object (after `{` and any
whitespace), up to and including the closing `}`. -/
def parseJMembers : Nat → PyStr → Option (List (PyStr × JValue) × PyStr)
  | 0, _ => none
  | fuel + 1, s =>
    match s with
    | '"' :: r => do
      let (key, rest) ← parseJStr r
      match skipJWs rest with
      | ':' :: r2 => do
        let (v, rest2) ← parseJValue fuel (skipJWs r2)
        match skipJWs rest2 with
        | ',' :: r3 => do
          let (ms, fin) ← parseJMembers fuel (skipJWs r3)
          some ((key, v) :: ms, fin)
        | '}' :: r3 => some ([(key, v)], r3)
        | _ => none
      | _ => none
    | _ => none

end

/-- Model of `json.loads`: parse one JSON document, requiring only
whitespace after it. -/
def jsonLoads (s : PyStr) : Option JValue :=
  match parseJValue (2 * s.length + 2) (skipJWs s) with
  | some (v, rest) => if skipJWs rest = [] then some v else none
  | none => none

/-! ## The pydantic record types of `src/models.py`

`min_years_experience` and `total_experience_years` are `float` in the
source; they are modelled as `Int` (all values they take in the claims are
integers, and no claim depends on fractional arithmetic). -/

/-- `JobRequirements` of `src/models.py`. -/
structure JobRequirements where
  job_title : PyStr
  must_have_skills : List PyStr
  good_to_have_skills : List PyStr
  min_years_experience : Int
  core_responsibilities : List PyStr
deriving DecidableEq

/-- `CandidateProfile` of `src/models.py`. -/
structure CandidateProfile where
  candidate_name : PyStr
  total_experience_years : Int
  skills : List PyStr
  work_experience_summary : PyStr
deriving DecidableEq

/-- `EvaluationResult` of `src/models.py`. -/
structure EvaluationResult where
  candidate_name : PyStr
  final_score : Int
  status : PyStr
  quantitative_gaps : List PyStr
  recruiter_rationale : PyStr
deriving DecidableEq

/-- Look a key up in a JSON object's member list; later duplicates win,
matching Python's `dict` built by `json.loads`. -/
def jlookup (fs : List (PyStr × JValue)) (k : PyStr) : Option JValue :=
  (fs.reverse.find? (fun p => decide (p.1 = k))).map (·.2)

/-- Extract a JSON string. -/
def getJStr : JValue → Option PyStr
  | .jstr s => some s
  | _ => none

/-- Extract a JSON number (pydantic accepts an integer for a float field). -/
def getJNum : JValue → Option Int
  | .jnum n => some n
  | _ => none

/-- Extract a JSON array of strings. -/
def getJStrList : JValue → Option (List PyStr)
  | .jarr xs => xs.mapM getJStr
  | _ => none

/-- Model of `JobRequirements.model_validate`: a parsed JSON value must be
an object carrying all five required fields with the right types; extra
keys are ignored (pydantic default). -/
def JobRequirements.model_validate (v : JValue) : Option JobRequirements :=
  match v with
  | .jobj fs => do
    let t ← jlookup fs "job_title".toList >>= getJStr
    let mh ← jlookup fs "must_have_skills".toList >>= getJStrList
    let gh ← jlookup fs "good_to_have_skills".toList >>= getJStrList
    let my ← jlookup fs "min_years_experience".toList >>= getJNum
    let cr ← jlookup fs "core_responsibilities".toList >>= getJStrList
    some ⟨t, mh, gh, my, cr⟩
  | _ => none

/-- Model of `JobRequirements.model_validate_json`. -/
def JobRequirements.model_validate_json (s : PyStr) : Option JobRequirements :=
  jsonLoads s >>= JobRequirements.model_validate

/-- Model of `CandidateProfile.model_validate`. -/
def CandidateProfile.model_validate (v : JValue) : Option CandidateProfile :=
  match v with
  | .jobj fs => do
    let n ← jlookup fs "candidate_name".toList >>= getJStr
    let y ← jlookup fs "total_experience_years".toList >>= getJNum
    let sk ← jlookup fs "skills".toList >>= getJStrList
    let w ← jlookup fs "work_experience_summary".toList >>= getJStr
    some ⟨n, y, sk, w⟩
  | _ => none

/-- Model of `CandidateProfile.model_validate_json`. -/
def CandidateProfile.model_validate_json (s : PyStr) : Option CandidateProfile :=
  jsonLoads s >>= CandidateProfile.model_validate

/-- Model of `EvaluationResult.model_validate_json`. -/
def EvaluationResult.model_validate (v : JValue) : Option EvaluationResult :=
  match v with
  | .jobj fs => do
    let n ← jlookup fs "candidate_name".toList >>= getJStr
    let sc ← jlookup fs "final_score".toList >>= getJNum
    let st ← jlookup fs "status".toList >>= getJStr
    let g ← jlookup fs "quantitative_gaps".toList >>= getJStrList
    let r ← jlookup fs "recruiter_rationale".toList >>= getJStr
    some ⟨n, sc, st, g, r⟩
  | _ => none

/-- Model of `EvaluationResult.model_validate_json`. -/
def EvaluationResult.model_validate_json (s : PyStr) : Option EvaluationResult :=
  jsonLoads s >>= EvaluationResult.model_validate

/-! ## Gemini SDK response shapes and `extract_response_text`
(`src/parsing_agent.py`, lines 14-44)

A response carries four probe points: the `text` attribute, the
`candidates` list, the `output` list, and a last-resort `content`
attribute.  An element of `candidates`/`output` is either object-like
(attribute access works, `.get` raises `AttributeError`) or dict-like
(attribute access yields `None`, `.get` works). -/

/-- An element of a response's `candidates` or `output` list. -/
inductive Shape where
  | objLike (content : Option PyStr) : Shape
  | dictLike (content : Option PyStr) : Shape
deriving DecidableEq

/-- A Gemini SDK response object. -/
structure GenResponse where
  text : Option PyStr
  candidates : Option (List Shape)
  output : Option (List Shape)
  content : Option PyStr
deriving DecidableEq

/-- Python truthiness of an optional string (`None` and `""` are falsy). -/
def truthyStr : Option PyStr → Bool
  | some s => !s.isEmpty
  | none => false

/-- The `output` probe (`src/parsing_agent.py`, lines 33-38) followed by
the last-resort `content` probe (lines 41-42).  The `output` branch guards
`.get` with `isinstance(out0, dict)`, so once the `output` list is truthy
it returns unconditionally — possibly `None` — without consulting the
`content` attribute. -/
def extractFromOutput (r : GenResponse) : Option PyStr :=
  match r.output with
  | some (.objLike (some s) :: _) => if !s.isEmpty then some s else none
  | some (.objLike none :: _) => none
  | some (.dictLike oc :: _) => oc
  | _ => if truthyStr r.content then r.content else none

/-- Model of `extract_response_text` (`src/parsing_agent.py`, lines 14-44).
The `candidates` branch translates
`return getattr(cand0, "content", None) or cand0.get("content")`:
an object-like element with truthy content returns it; with falsy content
the `or` falls to `.get`, which raises `AttributeError`, caught by the
surrounding `except`, so probing continues; a dict-like element returns its
`.get` result unconditionally (possibly `None`). -/
def extract_response_text : Option GenResponse → Option PyStr
  | none => none
  | some r =>
    if truthyStr r.text then r.text
    else
      match r.candidates with
      | some (.objLike (some s) :: _) =>
        if !s.isEmpty then some s else extractFromOutput r
      | some (.objLike none :: _) => extractFromOutput r
      | some (.dictLike oc :: _) => oc
      | _ => extractFromOutput r

/-- Model of `safe_parse_json` (`src/parsing_agent.py`, lines 47-77):
strict parse of the stripped text, then retry on the substring from the
first `\x7b` to the last `\x7d`, then on the substring from the first `[`
to the last `]`. -/
def safe_parse_json (text : PyStr) : Option JValue :=
  if text = [] then none
  else
    let t := strip text
    match jsonLoads t with
    | some v => some v
    | none =>
      let tryArr : Option JValue :=
        match pyFind t '[', pyRFind t ']' with
        | some i, some j =>
          if i < j then jsonLoads (pySlice t i (j + 1)) else none
        | _, _ => none
      match pyFind t '{', pyRFind t '}' with
      | some i, some j =>
        if i < j then
          match jsonLoads (pySlice t i (j + 1)) with
          | some v => some v
          | none => tryArr
        else tryArr
      | _, _ => tryArr

/-! ## The responsibilities-header regex
(`src/parsing_agent.py`, lines 86-93)

The pattern
`(Core\s+Responsibilities|Responsibilities|Key\s+Responsibilities|Duties)\s*[:\-]?\s*`
with `re.IGNORECASE` is embedded directly: `re.search` scans positions left
to right and, at each position, tries the alternatives in order. -/

/-- Case-insensitive literal match; returns the rest of the input. -/
def matchLitCI : PyStr → PyStr → Option PyStr
  | [], s => some s
  | _ :: _, [] => none
  | p :: ps, c :: cs => if p.toLower = c.toLower then matchLitCI ps cs else none

/-- Match `\s+` (at least one whitespace character, greedily). -/
def matchWsPlus : PyStr → Option PyStr
  | c :: cs => if isWs c then some (cs.dropWhile isWs) else none
  | [] => none

/-- Try the four header alternatives, in the pattern's order, at the
current position. -/
def matchHeaderAlt (s : PyStr) : Option PyStr :=
  (do
    let s1 ← matchLitCI "Core".toList s
    let s2 ← matchWsPlus s1
    matchLitCI "Responsibilities".toList s2) <|>
  matchLitCI "Responsibilities".toList s <|>
  (do
    let s1 ← matchLitCI "Key".toList s
    let s2 ← matchWsPlus s1
    matchLitCI "Responsibilities".toList s2) <|>
  matchLitCI "Duties".toList s

/-- Consume the pattern tail `\s*[:\-]?\s*` (no backtracking is needed:
`:` and `-` are not whitespace). -/
def matchHeaderTail (s : PyStr) : PyStr :=
  let s1 := s.dropWhile isWs
  let s2 := match s1 with
    | c :: cs => if c = ':' ∨ c = '-' then cs else s1
    | [] => s1
  s2.dropWhile isWs

/-- Model of `re.search` for the header pattern: leftmost match; returns
the input remaining after the match end (`m.end()`). -/
def searchHeader : PyStr → Option PyStr
  | [] => none
  | s@(_ :: rest) =>
    match matchHeaderAlt s with
    | some s1 => some (matchHeaderTail s1)
    | none => searchHeader rest

/-- Model of `re.match(r"^[-•*]\s+", ln)` being truthy. -/
def isBulletLine : PyStr → Bool
  | c :: d :: _ => (c = '-' ∨ c = '•' ∨ c = '*') ∧ isWs d
  | _ => false

/-- Model of `re.sub(r"^[-•*]\s*", "", ln)`. -/
def bulletStrip (ln : PyStr) : PyStr :=
  match ln with
  | c :: cs => if c = '-' ∨ c = '•' ∨ c = '*' then cs.dropWhile isWs else ln
  | [] => ln

/-- The bullet-collecting loop of
`heuristic_extract_core_responsibilities_from_text`
(`src/parsing_agent.py`, lines 95-103): bullet-like lines are appended with
the marker stripped, lines of at least 3 words are appended verbatim, and
the loop breaks once 8 items are collected. -/
def bulletsLoop : List PyStr → List PyStr → List PyStr
  | [], acc => acc
  | ln :: rest, acc =>
    let acc' :=
      if isBulletLine ln then acc ++ [bulletStrip ln]
      else if 3 ≤ wordCount ln then acc ++ [ln]
      else acc
    if 8 ≤ acc'.length then acc' else bulletsLoop rest acc'

/-- The stripped non-empty lines of a text. -/
def nonEmptyLines (t : PyStr) : List PyStr :=
  ((splitLines t).map strip).filter (· ≠ [])

/-- Model of `heuristic_extract_core_responsibilities_from_text`
(`src/parsing_agent.py`, lines 80-109). -/
def heuristic_extract_core_responsibilities_from_text (jd_text : PyStr) : List PyStr :=
  if jd_text = [] then []
  else
    match searchHeader jd_text with
    | some rest =>
      let snippet := rest.take 1000
      let bullets := bulletsLoop (nonEmptyLines snippet) []
      if bullets ≠ [] then bullets
      else (nonEmptyLines jd_text).take 6
    | none => (nonEmptyLines jd_text).take 6

/-- Model of `heuristic_summarize_resume` (`src/parsing_agent.py`,
lines 112-117) with the default `max_lines = 6`. -/
def heuristic_summarize_resume (resume_text : PyStr) : PyStr :=
  if resume_text = [] then "No resume text to summarize.".toList
  else
    let lines := nonEmptyLines resume_text
    if lines = [] then "No resume text to summarize.".toList
    else joinSpace (lines.take 6)

/-! ## The parsing agents (`src/parsing_agent.py`, lines 123-288)

The LLM backend is an oracle: a call either raises or returns a response
(possibly a falsy `None`).  A parsing agent returns `Except PyStr _` where
`.error` would mean an exception escaping to the caller; the `try/except`
of the source is the outer `match` on the try-body's result. -/

/-- Outcome of a `GEMINI_CLIENT.models.generate_content` call. -/
inductive LLMCall where
  | raises (msg : PyStr) : LLMCall
  | returns (resp : Option GenResponse) : LLMCall
deriving DecidableEq

/-- The message of the `ValueError` raised when no text can be extracted
from the response. -/
def noTextMsg : PyStr := "No textual response returned by Gemini client.".toList

/-- The `JobRequirements` sentinel returned when the client is not
initialized (`src/parsing_agent.py`, lines 125-132). -/
def jdClientSentinel : JobRequirements :=
  ⟨"Error".toList, [], [], 0, ["Gemini client not initialized".toList]⟩

/-- The heuristic-fallback record of `parse_job_description`
(`src/parsing_agent.py`, lines 179-188). -/
def jdHeuristicRecord (jd_text : PyStr) : JobRequirements :=
  let fb := heuristic_extract_core_responsibilities_from_text jd_text
  ⟨"(parsed with fallback)".toList, [], [], 0,
    if fb ≠ [] then fb else ["Could not recover responsibilities".toList]⟩

/-- The except-handler record of `parse_job_description`
(`src/parsing_agent.py`, lines 190-206). -/
def jdExceptRecord (jd_text e : PyStr) : JobRequirements :=
  let fb := heuristic_extract_core_responsibilities_from_text jd_text
  ⟨"Parsing Failed".toList, [], [], 0,
    if fb ≠ [] then fb else ["Error: ".toList ++ e]⟩

/-- The `try` body of `parse_job_description` (`src/parsing_agent.py`,
lines 134-188): any raise becomes `.error`, handled by the caller's
`except`. -/
def jdTryBody (call : LLMCall) (jd_text : PyStr) : Except PyStr JobRequirements :=
  match call with
  | .raises e => .error e
  | .returns resp =>
    match extract_response_text resp with
    | none => .error noTextMsg
    | some rt =>
      if rt = [] then .error noTextMsg
      else
        match safe_parse_json rt with
        | some parsed =>
          match JobRequirements.model_validate_json rt with
          | some r => .ok r
          | none =>
            match JobRequirements.model_validate parsed with
            | some r => .ok r
            | none => .ok (jdHeuristicRecord jd_text)
        | none => .ok (jdHeuristicRecord jd_text)

/-- Model of `parse_job_description` (`src/parsing_agent.py`,
lines 123-206).  `.error` would model an exception escaping to the
caller; the `except Exception` handler converts every raise into the
fallback record. -/
def parse_job_description (client : Bool) (call : LLMCall) (jd_text : PyStr) :
    Except PyStr JobRequirements :=
  if !client then .ok jdClientSentinel
  else
    match jdTryBody call jd_text with
    | .ok r => .ok r
    | .error e => .ok (jdExceptRecord jd_text e)

/-- The `CandidateProfile` sentinel returned when the client is not
initialized (`src/parsing_agent.py`, lines 214-220). -/
def cpClientSentinel : CandidateProfile :=
  ⟨"Error".toList, 0, [], "Gemini client not initialized".toList⟩

/-- The heuristic-fallback record of `parse_candidate_profile`
(`src/parsing_agent.py`, lines 265-273): the candidate name is the full
file name, with no extension stripping. -/
def cpHeuristicRecord (resume_text file_name : PyStr) : CandidateProfile :=
  ⟨file_name, 0, [], heuristic_summarize_resume resume_text⟩

/-- The except-handler record of `parse_candidate_profile`
(`src/parsing_agent.py`, lines 275-288). -/
def cpExceptRecord (resume_text file_name e : PyStr) : CandidateProfile :=
  ⟨file_name, 0, [],
    "Parsing Error: ".toList ++ e ++ ". Fallback summary: ".toList ++
      heuristic_summarize_resume resume_text⟩

/-- The `try` body of `parse_candidate_profile` (`src/parsing_agent.py`,
lines 222-273). -/
def cpTryBody (call : LLMCall) (resume_text file_name : PyStr) :
    Except PyStr CandidateProfile :=
  match call with
  | .raises e => .error e
  | .returns resp =>
    match extract_response_text resp with
    | none => .error noTextMsg
    | some rt =>
      if rt = [] then .error noTextMsg
      else
        match safe_parse_json rt with
        | some parsed =>
          match CandidateProfile.model_validate_json rt with
          | some p => .ok p
          | none =>
            match CandidateProfile.model_validate parsed with
            | some p => .ok p
            | none => .ok (cpHeuristicRecord resume_text file_name)
        | none => .ok (cpHeuristicRecord resume_text file_name)

/-- Model of `parse_candidate_profile` (`src/parsing_agent.py`,
lines 212-288).  Note: this variant never backfills an empty
`candidate_name` from the file name. -/
def parse_candidate_profile (client : Bool) (call : LLMCall)
    (resume_text file_name : PyStr) : Except PyStr CandidateProfile :=
  if !client then .ok cpClientSentinel
  else
    match cpTryBody call resume_text file_name with
    | .ok p => .ok p
    | .error e => .ok (cpExceptRecord resume_text file_name e)

/-! ## The evaluation agent (`src/evaluation_agent.py`) -/

/-- Outcome of the evaluation agent's `generate_content` call: it only
reads `response.text` (which may be absent/`None`). -/
inductive EvalCall where
  | raises (msg : PyStr) : EvalCall
  | returns (text : Option PyStr) : EvalCall
deriving DecidableEq

/-- The client-unavailable sentinel of `run_evaluation_agent`
(`src/evaluation_agent.py`, lines 16-23). -/
def evalSystemErrorRecord (name : PyStr) : EvaluationResult :=
  ⟨name, 0, "Rejected (System Error)".toList,
    ["Gemini Client not initialized.".toList],
    "System initialization failed.".toList⟩

/-- The except-handler sentinel of `run_evaluation_agent`
(`src/evaluation_agent.py`, lines 71-79). -/
def evalLlmErrorRecord (name e : PyStr) : EvaluationResult :=
  ⟨name, 0, "Rejected (LLM Error)".toList,
    ["LLM Processing Error: ".toList ++ e],
    "The AI failed to generate an evaluation. Please check the API.".toList⟩

/-- The message of the `TypeError` raised by
`EvaluationResult.model_validate_json(None)`. -/
def noneTextMsg : PyStr := "JSON input should be str, bytes or bytearray".toList

/-- The message used when validation of the reply fails. -/
def validationFailMsg : PyStr := "validation error for EvaluationResult".toList

/-- Model of `run_evaluation_agent` (`src/evaluation_agent.py`,
lines 8-79).  The function never raises, so it returns a plain record:
a transport error, an absent `response.text`, or a validation failure all
land in the `except` handler. -/
def run_evaluation_agent (client : Bool) (call : EvalCall)
    (_job_reqs : JobRequirements) (candidate_profile : CandidateProfile) :
    EvaluationResult :=
  if !client then evalSystemErrorRecord candidate_profile.candidate_name
  else
    match call with
    | .raises e => evalLlmErrorRecord candidate_profile.candidate_name e
    | .returns none =>
      evalLlmErrorRecord candidate_profile.candidate_name noneTextMsg
    | .returns (some t) =>
      match EvaluationResult.model_validate_json t with
      | some r => r
      | none => evalLlmErrorRecord candidate_profile.candidate_name validationFailMsg

/-! ## The `src/agent.py` variant of the candidate parser

`src/agent.py` is the other variant of the pipeline present in the
repository (not imported by `app.py`).  Its `parse_candidate_profile`
validates `response.text` directly and, on success, backfills an empty
`candidate_name` from the file's base name (lines 113-117). -/

namespace AgentVariant

/-- Model of `parse_candidate_profile` of `src/agent.py` (lines 87-121).
The resume text only feeds the prompt, so it does not appear here. -/
def parse_candidate_profile (client : Bool) (call : EvalCall)
    (_resume_text file_name : PyStr) : CandidateProfile :=
  if !client then ⟨"Error".toList, 0, [], "Error".toList⟩
  else
    match call with
    | .raises e => ⟨file_name, 0, [], "Parsing Error: ".toList ++ e⟩
    | .returns none => ⟨file_name, 0, [], "Parsing Error: ".toList ++ noneTextMsg⟩
    | .returns (some t) =>
      match CandidateProfile.model_validate_json t with
      | some profile =>
        if profile.candidate_name = [] ∧ file_name ≠ [] then
          { profile with candidate_name := splitextBase file_name }
        else profile
      | none =>
        ⟨file_name, 0, [], "Parsing Error: ".toList ++ validationFailMsg⟩

end AgentVariant

/-! ## Batch orchestration (`app.py`, `process_resumes`, lines 27-134)

File saving and Streamlit rendering are out of scope; an uploaded file is
modelled by its name, the outcome of reading/extracting it (an exception or
the extracted text), and the oracle outcomes of the two LLM calls made for
it.  The per-item `try/except` is the `match` in `itemRow`; the final
`DataFrame.sort_values(by="Final Score", ascending=False)` is modelled by
`sortRowsDesc` below. -/

/-- One uploaded resume: `readError = some e` models an exception raised
while saving or reading the file. -/
structure UploadItem where
  name : PyStr
  readError : Option PyStr
  text : PyStr
  parseCall : LLMCall
  evalCall : EvalCall

/-- One row of the result table (`app.py`, lines 105-112). -/
structure Row where
  candidate_name : PyStr
  final_score : Int
  status : PyStr
  rationale : PyStr
  gaps : PyStr
  experience : Int
deriving DecidableEq

/-- The message of the `ValueError` raised for short extracted text
(`app.py`, line 89). -/
def shortTextMsg : PyStr :=
  ("Extracted resume text is empty (possible scanned PDF). " ++
    "Ensure OCR fallback is present in extract_text_from_file.").toList

/-- The `try` body for one resume (`app.py`, lines 58-113): read the file,
raise if the stripped text has fewer than 20 characters, then run the two
agents and build the row. -/
def tryProcessOne (client : Bool) (jr : JobRequirements) (it : UploadItem) :
    Except PyStr Row :=
  match it.readError with
  | some e => .error e
  | none =>
    if it.text = [] ∨ (strip it.text).length < 20 then .error shortTextMsg
    else do
      let cp ← parse_candidate_profile client it.parseCall it.text it.name
      let ev := run_evaluation_agent client it.evalCall jr cp
      .ok ⟨ev.candidate_name, ev.final_score, ev.status, ev.recruiter_rationale,
        joinNl ev.quantitative_gaps, cp.total_experience_years⟩

/-- The error row built by the per-item `except` handler (`app.py`,
lines 115-124). -/
def systemErrorRow (name e : PyStr) : Row :=
  ⟨name, 0, "Failed (System Error)".toList,
    "Critical error during processing: ".toList ++ e,
    "System Failure".toList, 0⟩

/-- One resume's row: the `try/except` of `app.py`, lines 57-124. -/
def itemRow (client : Bool) (jr : JobRequirements) (it : UploadItem) : Row :=
  match tryProcessOne client jr it with
  | .ok r => r
  | .error e => systemErrorRow it.name e

/-- Stable ascending insertion on the score key: an element is placed after
every earlier element with a strictly smaller key and before the first
element with a greater-or-equal key. -/
def insertAsc (x : Row) : List Row → List Row
  | [] => [x]
  | y :: ys => if y.final_score < x.final_score then y :: insertAsc x ys else x :: y :: ys

/-- Stable ascending insertion sort on the score key. -/
def isortAsc : List Row → List Row
  | [] => []
  | x :: xs => insertAsc x (isortAsc xs)

/-- Model of `pd.DataFrame(results).sort_values(by="Final Score",
ascending=False)` (`app.py`, line 133): pandas computes a stable ascending
argsort of the key (numpy's sort is insertion sort at these sizes) and
reverses it for `ascending=False`, so equal keys come out in reversed
input order. -/
def sortRowsDesc (rows : List Row) : List Row := (isortAsc rows).reverse

/-- Model of Python's substring containment `needle in hay`. -/
def containsSub (needle hay : PyStr) : Bool :=
  match hay with
  | [] => needle.isEmpty
  | _ :: t => needle.isPrefixOf hay || containsSub needle t

/-- Model of `process_resumes` (`app.py`, lines 27-134).  The job
description is parsed once; if its `job_title` contains `"Error"` the
function returns an empty result set (lines 44-46); otherwise each resume
produces one row and the rows are sorted by score, descending. -/
def process_resumes (client : Bool) (jdCall : LLMCall) (jd_text : PyStr)
    (items : List UploadItem) : Except PyStr (List Row) := do
  let jr ← parse_job_description client jdCall jd_text
  if containsSub "Error".toList jr.job_title then .ok []
  else .ok (sortRowsDesc (items.map (itemRow client jr)))

/-! # Helper lemmas -/

set_option maxRecDepth 100000

/-- The rows of a result list carrying a given score, in order. -/
def scoreFilter (s : Int) (l : List Row) : List Row :=
  l.filter (fun r => decide (r.final_score = s))

theorem insertAsc_perm (x : Row) (l : List Row) : (insertAsc x l).Perm (x :: l) := by
  induction l with
  | nil => exact List.Perm.refl _
  | cons y ys ih =>
    unfold insertAsc
    split
    · exact (ih.cons y).trans (List.Perm.swap x y ys)
    · exact List.Perm.refl _

theorem isortAsc_perm (l : List Row) : (isortAsc l).Perm l := by
  induction l with
  | nil => exact List.Perm.refl _
  | cons x xs ih => exact (insertAsc_perm x (isortAsc xs)).trans (ih.cons x)

theorem sortRowsDesc_perm (l : List Row) : (sortRowsDesc l).Perm l :=
  (List.reverse_perm (isortAsc l)).trans (isortAsc_perm l)

theorem insertAsc_pairwise (x : Row) (l : List Row)
    (h : l.Pairwise (fun a b => a.final_score ≤ b.final_score)) :
    (insertAsc x l).Pairwise (fun a b => a.final_score ≤ b.final_score) := by
  induction l with
  | nil => simp [insertAsc]
  | cons y ys ih =>
    obtain ⟨hy, hys⟩ := List.pairwise_cons.mp h
    unfold insertAsc
    split
    · rename_i hlt
      refine List.pairwise_cons.mpr ⟨?_, ih hys⟩
      intro b hb
      rcases List.mem_cons.mp ((insertAsc_perm x ys).mem_iff.mp hb) with hbx | hby
      · subst hbx; omega
      · exact hy b hby
    · rename_i hnlt
      refine List.pairwise_cons.mpr ⟨?_, h⟩
      intro b hb
      rcases List.mem_cons.mp hb with hby | hbys
      · subst hby; omega
      · exact le_trans (by omega) (hy b hbys)

theorem isortAsc_pairwise (l : List Row) :
    (isortAsc l).Pairwise (fun a b => a.final_score ≤ b.final_score) := by
  induction l with
  | nil => simp [isortAsc]
  | cons x xs ih => exact insertAsc_pairwise x (isortAsc xs) ih

theorem scoreFilter_insertAsc (x : Row) (l : List Row) (s : Int) :
    scoreFilter s (insertAsc x l) =
      if x.final_score = s then x :: scoreFilter s l else scoreFilter s l := by
  induction l with
  | nil =>
    unfold insertAsc scoreFilter
    simp only [List.filter]
    split_ifs with h <;> simp [h]
  | cons y ys ih =>
    rw [show insertAsc x (y :: ys) =
      if y.final_score < x.final_score then y :: insertAsc x ys else x :: y :: ys from rfl]
    by_cases hlt : y.final_score < x.final_score
    · rw [if_pos hlt]
      unfold scoreFilter at ih ⊢
      rw [List.filter_cons, List.filter_cons]
      by_cases hy : y.final_score = s
      · have hx : ¬ x.final_score = s := by omega
        simp [hy, hx, ih, decide_eq_true_eq]
      · by_cases hx : x.final_score = s <;>
          simp [hy, hx, ih, decide_eq_true_eq]
    · rw [if_neg hlt]
      unfold scoreFilter
      rw [List.filter_cons]
      by_cases hx : x.final_score = s <;> simp [hx, decide_eq_true_eq]

theorem scoreFilter_isortAsc (l : List Row) (s : Int) :
    scoreFilter s (isortAsc l) = scoreFilter s l := by
  induction l with
  | nil => rfl
  | cons x xs ih =>
    show scoreFilter s (insertAsc x (isortAsc xs)) = _
    rw [scoreFilter_insertAsc, ih]
    unfold scoreFilter
    rw [List.filter_cons]
    by_cases h : x.final_score = s <;> simp [h, decide_eq_true_eq]

theorem scoreFilter_reverse (l : List Row) (s : Int) :
    scoreFilter s l.reverse = (scoreFilter s l).reverse := by
  unfold scoreFilter
  exact List.filter_reverse _ _

theorem dropWhile_append_cons {f : Char → Bool} (a : PyStr) (c : Char) (cs : PyStr)
    (hc : f c = false) :
    (a ++ c :: cs).dropWhile f = a.dropWhile f ++ c :: cs := by
  induction a with
  | nil => simp [List.dropWhile_cons, hc]
  | cons x xs ih =>
    by_cases hx : f x
    · simp [List.dropWhile_cons, hx, ih]
    · simp [List.dropWhile_cons, hx]

theorem lstrip_append_cons (p : PyStr) (c : Char) (cs : PyStr) (hc : isWs c = false) :
    lstrip (p ++ c :: cs) = lstrip p ++ c :: cs :=
  dropWhile_append_cons p c cs hc

theorem rstrip_append_of_last (x q : PyStr) (d : Char) (ds : PyStr)
    (hrev : x.reverse = d :: ds) (hd : isWs d = false) :
    rstrip (x ++ q) = x ++ rstrip q := by
  unfold rstrip
  rw [List.reverse_append, hrev, dropWhile_append_cons _ _ _ hd,
    List.reverse_append, List.reverse_cons]
  have hx : x = ds.reverse ++ [d] := by
    have := congrArg List.reverse hrev
    simpa using this
  rw [← hx]

theorem lstrip_of_head (c : Char) (cs : PyStr) (hc : isWs c = false) :
    lstrip (c :: cs) = c :: cs := by
  simp [lstrip, List.dropWhile_cons, hc]

theorem rstrip_of_last (x : PyStr) (d : Char) (ds : PyStr)
    (hrev : x.reverse = d :: ds) (hd : isWs d = false) :
    rstrip x = x := by
  have := rstrip_append_of_last x [] d ds hrev hd
  simpa [rstrip] using this

theorem not_mem_lstrip {c : Char} {p : PyStr} (h : c ∉ p) : c ∉ lstrip p :=
  fun hm => h ((List.dropWhile_sublist _).mem hm)

theorem not_mem_rstrip {c : Char} {q : PyStr} (h : c ∉ q) : c ∉ rstrip q := by
  intro hm
  unfold rstrip at hm
  rw [List.mem_reverse] at hm
  exact h (List.mem_reverse.mp ((List.dropWhile_sublist _).mem hm))

theorem pyFind_cons_self (c : Char) (s : PyStr) : pyFind (c :: s) c = some 0 := by
  simp [pyFind]

theorem pyFind_append_not_mem (a b : PyStr) (c : Char) (h : c ∉ a) :
    pyFind (a ++ b) c = (pyFind b c).map (· + a.length) := by
  induction a with
  | nil => cases h' : pyFind b c <;> simp [h']
  | cons x xs ih =>
    have hx : ¬ x = c := fun he => h (he ▸ List.mem_cons_self x xs)
    have htl : c ∉ xs := fun hm => h (List.mem_cons_of_mem x hm)
    rw [List.cons_append]
    show (if x = c then some 0 else (pyFind (xs ++ b) c).map (· + 1)) = _
    rw [if_neg hx, ih htl]
    cases pyFind b c with
    | none => rfl
    | some i =>
      simp [List.length_cons]
      omega

/-- Trivial records used to instantiate witnesses. -/
def jrTriv : JobRequirements := ⟨[], [], [], 0, []⟩

/-- Trivial candidate profile used to instantiate witnesses. -/
def cpTriv : CandidateProfile := ⟨[], 0, [], []⟩

/-! # Claim theorems -/

/-- C1: for every input text and every backend outcome (transport error,
absent response, arbitrary response shape), `parse_job_description` and
`parse_candidate_profile` return a fully-formed record of the expected
type and never let an exception escape to the caller (`.ok` always). -/
theorem C1_extraction_totality (client : Bool) (call call2 : LLMCall)
    (jd_text resume_text file_name : PyStr) :
    (∃ r : JobRequirements, parse_job_description client call jd_text = .ok r) ∧
    (∃ p : CandidateProfile,
      parse_candidate_profile client call2 resume_text file_name = .ok p) := by
  constructor
  · cases client with
    | false => exact ⟨jdClientSentinel, rfl⟩
    | true =>
      cases h : jdTryBody call jd_text with
      | ok r => exact ⟨r, by simp [parse_job_description, h]⟩
      | error e => exact ⟨jdExceptRecord jd_text e, by simp [parse_job_description, h]⟩
  · cases client with
    | false => exact ⟨cpClientSentinel, rfl⟩
    | true =>
      cases h : cpTryBody call2 resume_text file_name with
      | ok p => exact ⟨p, by simp [parse_candidate_profile, h]⟩
      | error e =>
        exact ⟨cpExceptRecord resume_text file_name e, by simp [parse_candidate_profile, h]⟩

/-- C2: on every error path of `run_evaluation_agent` — client not
initialized, transport error, absent `response.text`, or validation
failure — the returned record has `final_score = 0` and one of the two
rejected-error statuses, never `"Accepted"`; the unavailable client gives
`"Rejected (System Error)"` and every other error gives
`"Rejected (LLM Error)"`. -/
theorem C2_eval_error_sentinels (client : Bool) (call : EvalCall)
    (jr : JobRequirements) (cp : CandidateProfile)
    (herr : client = false ∨ (∃ e, call = .raises e) ∨ call = .returns none ∨
      (∃ t, call = .returns (some t) ∧ EvaluationResult.model_validate_json t = none)) :
    (run_evaluation_agent client call jr cp).final_score = 0 ∧
    ((run_evaluation_agent client call jr cp).status = "Rejected (System Error)".toList ∨
      (run_evaluation_agent client call jr cp).status = "Rejected (LLM Error)".toList) ∧
    (run_evaluation_agent client call jr cp).status ≠ "Accepted".toList ∧
    (client = false →
      (run_evaluation_agent client call jr cp).status = "Rejected (System Error)".toList) ∧
    (client = true →
      (run_evaluation_agent client call jr cp).status = "Rejected (LLM Error)".toList) := by
  have hne1 : "Rejected (System Error)".toList ≠ "Accepted".toList := by decide
  have hne2 : "Rejected (LLM Error)".toList ≠ "Accepted".toList := by decide
  have hfalse : ∀ call', run_evaluation_agent false call' jr cp =
      evalSystemErrorRecord cp.candidate_name := fun _ => rfl
  rcases herr with hc | ⟨e, hcall⟩ | hcall | ⟨t, hcall, hval⟩
  · subst hc
    rw [hfalse]
    exact ⟨rfl, Or.inl rfl, hne1, fun _ => rfl, fun h => absurd h (by decide)⟩
  · subst hcall
    cases client with
    | false =>
      rw [hfalse]
      exact ⟨rfl, Or.inl rfl, hne1, fun _ => rfl, fun h => absurd h (by decide)⟩
    | true =>
      rw [show run_evaluation_agent true (.raises e) jr cp =
        evalLlmErrorRecord cp.candidate_name e from rfl]
      exact ⟨rfl, Or.inr rfl, hne2, fun h => absurd h (by decide), fun _ => rfl⟩
  · subst hcall
    cases client with
    | false =>
      rw [hfalse]
      exact ⟨rfl, Or.inl rfl, hne1, fun _ => rfl, fun h => absurd h (by decide)⟩
    | true =>
      rw [show run_evaluation_agent true (.returns none) jr cp =
        evalLlmErrorRecord cp.candidate_name noneTextMsg from rfl]
      exact ⟨rfl, Or.inr rfl, hne2, fun h => absurd h (by decide), fun _ => rfl⟩
  · subst hcall
    cases client with
    | false =>
      rw [hfalse]
      exact ⟨rfl, Or.inl rfl, hne1, fun _ => rfl, fun h => absurd h (by decide)⟩
    | true =>
      have hrw : run_evaluation_agent true (.returns (some t)) jr cp =
          evalLlmErrorRecord cp.candidate_name validationFailMsg := by
        simp [run_evaluation_agent, hval]
      rw [hrw]
      exact ⟨rfl, Or.inr rfl, hne2, fun h => absurd h (by decide), fun _ => rfl⟩

/-- Witness for C2 at a concrete input: the unavailable-client path. -/
theorem C2_eval_error_sentinels_witness :
    (run_evaluation_agent false (.raises []) jrTriv cpTriv).final_score = 0 ∧
    ((run_evaluation_agent false (.raises []) jrTriv cpTriv).status =
        "Rejected (System Error)".toList ∨
      (run_evaluation_agent false (.raises []) jrTriv cpTriv).status =
        "Rejected (LLM Error)".toList) ∧
    (run_evaluation_agent false (.raises []) jrTriv cpTriv).status ≠ "Accepted".toList ∧
    (false = false →
      (run_evaluation_agent false (.raises []) jrTriv cpTriv).status =
        "Rejected (System Error)".toList) ∧
    (false = true →
      (run_evaluation_agent false (.raises []) jrTriv cpTriv).status =
        "Rejected (LLM Error)".toList) :=
  C2_eval_error_sentinels false (.raises []) jrTriv cpTriv (Or.inl rfl)

/-- The four rows of the C7 scenario, with scores `[40, 90, 0, 90]`. -/
def rowA : Row := ⟨"A".toList, 40, [], [], [], 0⟩

/-- Score-90 row appearing first in the input. -/
def rowB : Row := ⟨"B".toList, 90, [], [], [], 0⟩

/-- Score-0 row. -/
def rowC : Row := ⟨"C".toList, 0, [], [], [], 0⟩

/-- Score-90 row appearing second in the input. -/
def rowD : Row := ⟨"D".toList, 90, [], [], [], 0⟩

/-- C7 counterexample: on scores `[40, 90, 0, 90]` the sort model (pandas
reverses a stable ascending argsort for `ascending=False`) produces the two
90-rows in REVERSED input order, `[D, B, A, C]`, not the claimed stable
order `[B, D, A, C]`. -/
theorem C7_counterexample :
    sortRowsDesc [rowA, rowB, rowC, rowD] = [rowD, rowB, rowA, rowC] ∧
    sortRowsDesc [rowA, rowB, rowC, rowD] ≠ [rowB, rowD, rowA, rowC] := by
  constructor
  · rfl
  · decide

/-- C7 amended: the batch output is a permutation of the input rows sorted
descending by `final_score`, and rows with equal scores appear in REVERSED
input order (pandas computes a stable ascending argsort and reverses it for
`ascending=False`). -/
theorem C7_sort_descending_ties_reversed (rows : List Row) :
    (sortRowsDesc rows).Perm rows ∧
    (sortRowsDesc rows).Pairwise (fun a b => b.final_score ≤ a.final_score) ∧
    ∀ s : Int, scoreFilter s (sortRowsDesc rows) = (scoreFilter s rows).reverse := by
  refine ⟨sortRowsDesc_perm rows, ?_, ?_⟩
  · unfold sortRowsDesc
    exact (List.pairwise_reverse).mpr (isortAsc_pairwise rows)
  · intro s
    unfold sortRowsDesc
    rw [scoreFilter_reverse, scoreFilter_isortAsc]

/-- An arbitrary well-formed upload item used in the C8 counterexample. -/
def itemC8 : UploadItem :=
  ⟨"a.pdf".toList, none, "0123456789012345678901234".toList, .raises [], .raises []⟩

/-- C8 counterexample: with the client unavailable and one uploaded resume,
`process_resumes` returns an empty result set — the uploaded resume yields
NO row at all, because the orchestrator detects `"Error"` in the sentinel
job title and returns an empty table (`app.py`, lines 44-46). -/
theorem C8_counterexample :
    process_resumes false (.raises []) "jd text".toList [itemC8] = .ok [] ∧
    ¬ ∃ rows : List Row,
      process_resumes false (.raises []) "jd text".toList [itemC8] = .ok rows ∧
        rows.length = 1 := by
  refine ⟨rfl, ?_⟩
  rintro ⟨rows, h, hlen⟩
  rw [show process_resumes false (.raises []) "jd text".toList [itemC8] = .ok [] from rfl] at h
  cases h
  simp at hlen

/-- C8 amended: when the client failed to initialize, every extraction and
evaluation call returns its fixed error-sentinel record for the rest of the
session (the condition is never retried — the sentinel is independent of
the oracle outcome), but uploaded resumes do NOT yield sentinel rows:
`process_resumes` detects the `"Error"` job title and returns an empty
result set. -/
theorem C8_config_error_sentinels (jdCall pcCall : LLMCall) (ecall : EvalCall)
    (jd rt fn : PyStr) (jr : JobRequirements) (cp : CandidateProfile)
    (items : List UploadItem) :
    parse_job_description false jdCall jd = .ok jdClientSentinel ∧
    parse_candidate_profile false pcCall rt fn = .ok cpClientSentinel ∧
    run_evaluation_agent false ecall jr cp = evalSystemErrorRecord cp.candidate_name ∧
    process_resumes false jdCall jd items = .ok [] :=
  ⟨rfl, rfl, rfl, rfl⟩

/-- C10: for every resume whose text strips to fewer than 20 characters,
the per-item guard raises before any agent runs: the row is the fixed
`"Failed (System Error)"` row and is independent of both LLM oracles
(neither `parse_candidate_profile` nor `run_evaluation_agent` is ever
consulted). -/
theorem C10_short_text_guard (client : Bool) (jr : JobRequirements)
    (name text : PyStr) (h : (strip text).length < 20)
    (pc pc' : LLMCall) (ec ec' : EvalCall) :
    itemRow client jr ⟨name, none, text, pc, ec⟩ = systemErrorRow name shortTextMsg ∧
    itemRow client jr ⟨name, none, text, pc, ec⟩ =
      itemRow client jr ⟨name, none, text, pc', ec'⟩ := by
  have key : ∀ pc0 ec0, itemRow client jr ⟨name, none, text, pc0, ec0⟩ =
      systemErrorRow name shortTextMsg := by
    intro pc0 ec0
    unfold itemRow tryProcessOne
    simp [Or.inr h]
  exact ⟨key pc ec, (key pc ec).trans (key pc' ec').symm⟩

/-- C6: in a batch of 3 resumes where resume 2's processing raises, the
result still has exactly 3 rows; resume 2's row is the fixed error row
(`status = "Failed (System Error)"`, `final_score = 0`,
`gaps = "System Failure"`, `experience = 0`), and rows 1 and 3 are the
normally computed per-item rows, both present in the output. -/
theorem C6_batch_isolation (client : Bool) (jdCall : LLMCall) (jd_text e : PyStr)
    (jr : JobRequirements) (i1 i2 i3 : UploadItem)
    (hjr : parse_job_description client jdCall jd_text = .ok jr)
    (hnoe : containsSub "Error".toList jr.job_title = false)
    (h2 : tryProcessOne client jr i2 = .error e) :
    ∃ rows : List Row,
      process_resumes client jdCall jd_text [i1, i2, i3] = .ok rows ∧
      rows.length = 3 ∧
      itemRow client jr i2 = systemErrorRow i2.name e ∧
      systemErrorRow i2.name e ∈ rows ∧
      (systemErrorRow i2.name e).final_score = 0 ∧
      (systemErrorRow i2.name e).status = "Failed (System Error)".toList ∧
      (systemErrorRow i2.name e).gaps = "System Failure".toList ∧
      (systemErrorRow i2.name e).experience = 0 ∧
      itemRow client jr i1 ∈ rows ∧ itemRow client jr i3 ∈ rows := by
  have h22 : itemRow client jr i2 = systemErrorRow i2.name e := by
    unfold itemRow; rw [h2]
  refine ⟨sortRowsDesc ([i1, i2, i3].map (itemRow client jr)),
    ?_, ?_, h22, ?_, rfl, rfl, rfl, rfl, ?_, ?_⟩
  · unfold process_resumes
    rw [hjr]
    show (if containsSub "Error".toList jr.job_title = true then Except.ok []
      else Except.ok (sortRowsDesc ([i1, i2, i3].map (itemRow client jr)))) =
      Except.ok (sortRowsDesc ([i1, i2, i3].map (itemRow client jr)))
    rw [hnoe]
    simp
  · rw [(sortRowsDesc_perm ([i1, i2, i3].map (itemRow client jr))).length_eq]
    rfl
  · refine (sortRowsDesc_perm _).mem_iff.mpr ?_
    rw [← h22]
    exact List.mem_map_of_mem _ (by simp)
  · exact (sortRowsDesc_perm _).mem_iff.mpr (List.mem_map_of_mem _ (by simp))
  · exact (sortRowsDesc_perm _).mem_iff.mpr (List.mem_map_of_mem _ (by simp))

/-- A job-description reply whose title contains no `"Error"`. -/
def jdJsonW : PyStr :=
  ("\x7b\"job_title\":\"Dev\",\"must_have_skills\":[\"py\"]," ++
    "\"good_to_have_skills\":[],\"min_years_experience\":3," ++
    "\"core_responsibilities\":[\"code\"]\x7d").toList

/-- The job requirements parsed from `jdJsonW`. -/
def jrW : JobRequirements := ⟨"Dev".toList, ["py".toList], [], 3, ["code".toList]⟩

/-- Witness item 1: processed normally (its LLM calls fail, which the
agents degrade internally; `tryProcessOne` still succeeds). -/
def itW1 : UploadItem :=
  ⟨"one.pdf".toList, none, "abcdefghijklmnopqrstuvwxyz".toList,
    .raises "x".toList, .raises "y".toList⟩

/-- Witness item 2: its extracted text is too short, so its processing
raises. -/
def itW2 : UploadItem := ⟨"two.pdf".toList, none, "tiny".toList, .raises [], .raises []⟩

/-- Witness item 3: processed normally. -/
def itW3 : UploadItem :=
  ⟨"three.pdf".toList, none, "abcdefghijklmnopqrstuvwxyz".toList,
    .raises "x".toList, .raises "y".toList⟩

/-- Witness for C6 at concrete inputs. -/
theorem C6_batch_isolation_witness :
    ∃ rows : List Row,
      process_resumes true (.returns (some ⟨some jdJsonW, none, none, none⟩))
          "a jd".toList [itW1, itW2, itW3] = .ok rows ∧
      rows.length = 3 ∧
      itemRow true jrW itW2 = systemErrorRow itW2.name shortTextMsg ∧
      systemErrorRow itW2.name shortTextMsg ∈ rows ∧
      (systemErrorRow itW2.name shortTextMsg).final_score = 0 ∧
      (systemErrorRow itW2.name shortTextMsg).status = "Failed (System Error)".toList ∧
      (systemErrorRow itW2.name shortTextMsg).gaps = "System Failure".toList ∧
      (systemErrorRow itW2.name shortTextMsg).experience = 0 ∧
      itemRow true jrW itW1 ∈ rows ∧ itemRow true jrW itW3 ∈ rows :=
  C6_batch_isolation true (.returns (some ⟨some jdJsonW, none, none, none⟩))
    "a jd".toList shortTextMsg jrW itW1 itW2 itW3 rfl rfl rfl

/-- The successful reply of the C4 counterexample: valid JSON for
`CandidateProfile` with an empty `candidate_name`. -/
def cpEmptyNameJson : PyStr :=
  ("\x7b\"candidate_name\":\"\",\"total_experience_years\":2," ++
    "\"skills\":[],\"work_experience_summary\":\"x\"\x7d").toList

/-- C4 counterexample: in `src/parsing_agent.py` (the variant `app.py`
imports), a successfully parsed profile with an empty `candidate_name` is
returned unchanged — the final name is `""`, not `"jane_doe"`; no backfill
exists in that module. -/
theorem C4_counterexample :
    parse_candidate_profile true
        (.returns (some ⟨some cpEmptyNameJson, none, none, none⟩))
        "some resume text".toList "jane_doe.pdf".toList =
      .ok ⟨[], 2, [], "x".toList⟩ ∧
    ([] : PyStr) ≠ "jane_doe".toList := by
  constructor
  · rfl
  · decide

/-- C4 amended: the base-name backfill lives only in the `src/agent.py`
variant: there, a successfully validated profile with empty
`candidate_name` and file name `"jane_doe.pdf"` gets `candidate_name =
"jane_doe"`; in `src/parsing_agent.py` (used by the app) heuristic and
error profiles get the full file name and a successful empty name stays
empty. -/
theorem C4_backfill_in_agent_variant (t rt : PyStr) (p0 : CandidateProfile)
    (hv : CandidateProfile.model_validate_json t = some p0)
    (hn : p0.candidate_name = []) :
    AgentVariant.parse_candidate_profile true (.returns (some t)) rt
        "jane_doe.pdf".toList =
      { p0 with candidate_name := "jane_doe".toList } := by
  simp [AgentVariant.parse_candidate_profile, hv, hn]
  rfl

/-- Witness for C4's amended theorem at a concrete reply. -/
theorem C4_backfill_in_agent_variant_witness :
    AgentVariant.parse_candidate_profile true (.returns (some cpEmptyNameJson))
        "r".toList "jane_doe.pdf".toList =
      { (⟨[], 2, [], "x".toList⟩ : CandidateProfile) with
          candidate_name := "jane_doe".toList } :=
  C4_backfill_in_agent_variant cpEmptyNameJson "r".toList ⟨[], 2, [], "x".toList⟩ rfl rfl

/-- The C9 counterexample response: `text` absent, `candidates[0]` a dict
without a `"content"` key, `output[0]` an object with non-empty content. -/
def respC9 : GenResponse :=
  ⟨none, some [.dictLike none], some [.objLike (some "hello".toList)], none⟩

/-- C9 counterexample: with a dict-shaped `candidates[0]` lacking
`"content"`, the probe returns `None` even though the `output` shape is
present with non-empty content `"hello"` — the claimed first-present-
non-empty probing would return `"hello"`. -/
theorem C9_counterexample :
    extract_response_text (some respC9) = none ∧
    respC9.output = some [.objLike (some "hello".toList)] ∧
    (none : Option PyStr) ≠ some "hello".toList := by
  refine ⟨rfl, rfl, ?_⟩
  decide

/-- C9 amended: the probe tries `text`, then `candidates[0]`, then
`output[0]`, then a last-resort top-level `content` attribute — but a
dict-shaped `candidates[0]` returns its `.get("content")` result
unconditionally, and a present `output[0]` likewise terminates the probe
unconditionally (even returning `None` over a later non-empty `content`);
only an object-shaped `candidates[0]` with falsy content falls through.
When every probe yields no text, the agent raises its empty-response error,
absorbed into the `"Parsing Failed"` fallback record. -/
theorem C9_probe_order (r : GenResponse) :
    (truthyStr r.text = true → extract_response_text (some r) = r.text) ∧
    (truthyStr r.text = false → ∀ oc rest, r.candidates = some (.dictLike oc :: rest) →
      extract_response_text (some r) = oc) ∧
    (truthyStr r.text = false →
      (r.candidates = none ∨ r.candidates = some [] ∨
        ∃ c rest, r.candidates = some (.objLike c :: rest) ∧ truthyStr c = false) →
      ∀ s rest, r.output = some (.objLike (some s) :: rest) → s ≠ [] →
        extract_response_text (some r) = some s) ∧
    (truthyStr r.text = false →
      (r.candidates = none ∨ r.candidates = some [] ∨
        ∃ c rest, r.candidates = some (.objLike c :: rest) ∧ truthyStr c = false) →
      ∀ rest, r.output = some (.objLike none :: rest) →
        extract_response_text (some r) = none) ∧
    (truthyStr r.text = false →
      (r.candidates = none ∨ r.candidates = some [] ∨
        ∃ c rest, r.candidates = some (.objLike c :: rest) ∧ truthyStr c = false) →
      (r.output = none ∨ r.output = some []) →
      truthyStr r.content = false →
      extract_response_text (some r) = none) ∧
    (extract_response_text (some r) = none →
      ∀ jd_text, parse_job_description true (.returns (some r)) jd_text =
        .ok (jdExceptRecord jd_text noTextMsg)) := by
  have hfall : truthyStr r.text = false →
      (r.candidates = none ∨ r.candidates = some [] ∨
        ∃ c rest, r.candidates = some (.objLike c :: rest) ∧ truthyStr c = false) →
      extract_response_text (some r) = extractFromOutput r := by
    intro ht hc
    rcases hc with hc | hc | ⟨c, rest, hc, hcf⟩
    · simp [extract_response_text, ht, hc]
    · simp [extract_response_text, ht, hc]
    · cases c with
      | none => simp [extract_response_text, ht, hc]
      | some s' =>
        have hse : s'.isEmpty = true := by
          simp [truthyStr] at hcf
          simp [hcf]
        simp [extract_response_text, ht, hc, hse]
  refine ⟨?_, ?_, ?_, ?_, ?_, ?_⟩
  · intro h
    simp [extract_response_text, h]
  · intro ht oc rest hc
    simp [extract_response_text, ht, hc]
  · intro ht hc s rest ho hne
    rw [hfall ht hc]
    have hse : s.isEmpty = false := by
      cases s with
      | nil => exact absurd rfl hne
      | cons a as => rfl
    simp [extractFromOutput, ho, hse]
  · intro ht hc rest ho
    rw [hfall ht hc]
    simp [extractFromOutput, ho]
  · intro ht hc ho hcont
    rw [hfall ht hc]
    rcases ho with ho | ho <;> simp [extractFromOutput, ho, hcont]
  · intro hnone jd_text
    have hbody : jdTryBody (.returns (some r)) jd_text = .error noTextMsg := by
      simp [jdTryBody, hnone]
    simp [parse_job_description, hbody]

/-- The C9 witness response: only the `output` probe carries text. -/
def respC9W : GenResponse := ⟨none, none, some [.objLike (some "hi".toList)], none⟩

/-- Witness for C9's amended theorem at a concrete response. -/
theorem C9_probe_order_witness :
    extract_response_text (some respC9W) = some "hi".toList :=
  (C9_probe_order respC9W).2.2.1 rfl (Or.inl rfl) "hi".toList [] rfl (by decide)

/-- C3 counterexample: a reply that is valid JSON for the target schema
followed by prose containing a stray `\x7d`: the repair slices from the
first `\x7b` to the LAST `\x7d`, which no longer parses; it then slices
from the first `[` to the last `]`, recovering the inner `[]` of the
`"skills"` field — so validation fails and the record is NOT recovered,
while the same reply without the prose validates to the record.  (The code
searches first-`\x7b`-to-last-`\x7d`, not the first top-level JSON
object.) -/
theorem C3_counterexample :
    (safe_parse_json (cpEmptyNameJson ++ " note: mind the \x7d chars".toList)).bind
        CandidateProfile.model_validate = none ∧
    (safe_parse_json cpEmptyNameJson).bind CandidateProfile.model_validate =
      some ⟨[], 2, [], "x".toList⟩ ∧
    safe_parse_json (cpEmptyNameJson ++ " note: mind the \x7d chars".toList) =
      some (.jarr []) := by
  refine ⟨?_, ?_, ?_⟩ <;> rfl

/-- C3 amended: the repair slices the stripped reply from the FIRST
`\x7b` to the LAST `\x7d` (then first `[` to last `]`) and retries; it
therefore recovers exactly the embedded JSON value — and validation then
agrees with the prose-free reply — provided the strict parse of the whole
reply fails, the prose before the value contains no `\x7b`, and the prose
after it contains no `\x7d`. -/
theorem C3_repair_recovers (p mid q : PyStr) (v : JValue)
    (hp : '{' ∉ p) (hq : '}' ∉ q)
    (hstrict : jsonLoads (strip (p ++ ('{' :: (mid ++ ['}'])) ++ q)) = none)
    (hs : jsonLoads ('{' :: (mid ++ ['}'])) = some v) :
    safe_parse_json (p ++ ('{' :: (mid ++ ['}'])) ++ q) = some v ∧
    safe_parse_json ('{' :: (mid ++ ['}'])) = some v ∧
    (safe_parse_json (p ++ ('{' :: (mid ++ ['}'])) ++ q)).bind CandidateProfile.model_validate =
      (safe_parse_json ('{' :: (mid ++ ['}']))).bind CandidateProfile.model_validate := by
  have hbrace : isWs '{' = false := rfl
  have hrbrace : isWs '}' = false := rfl
  have hsrev : ('{' :: (mid ++ ['}'])).reverse = '}' :: (mid.reverse ++ ['{']) := by simp
  have hx : (lstrip p ++ ('{' :: (mid ++ ['}']))).reverse
      = '}' :: (mid.reverse ++ ['{'] ++ (lstrip p).reverse) := by
    rw [List.reverse_append, hsrev]
    simp
  have hlstrip : lstrip ((p ++ ('{' :: (mid ++ ['}']))) ++ q)
      = (lstrip p ++ ('{' :: (mid ++ ['}']))) ++ q := by
    rw [List.append_assoc, List.cons_append, lstrip_append_cons p '{' _ hbrace]
    simp
  have hstripX : strip ((p ++ ('{' :: (mid ++ ['}']))) ++ q)
      = (lstrip p ++ ('{' :: (mid ++ ['}']))) ++ rstrip q := by
    unfold strip
    rw [hlstrip]
    exact rstrip_append_of_last _ q '}' _ hx hrbrace
  have hfind : pyFind ((lstrip p ++ ('{' :: (mid ++ ['}']))) ++ rstrip q) '{'
      = some (lstrip p).length := by
    rw [List.append_assoc, List.cons_append,
      pyFind_append_not_mem _ _ _ (not_mem_lstrip hp), pyFind_cons_self]
    simp
  have hXrev : ((lstrip p ++ ('{' :: (mid ++ ['}']))) ++ rstrip q).reverse
      = (rstrip q).reverse ++ ('}' :: (mid.reverse ++ ['{'] ++ (lstrip p).reverse)) := by
    rw [List.reverse_append, hx]
  have hnq : '}' ∉ (rstrip q).reverse := by
    intro hm
    exact not_mem_rstrip hq (List.mem_reverse.mp hm)
  have hrfind : pyRFind ((lstrip p ++ ('{' :: (mid ++ ['}']))) ++ rstrip q) '}'
      = some ((lstrip p).length + mid.length + 1) := by
    unfold pyRFind
    rw [hXrev, pyFind_append_not_mem _ _ _ hnq, pyFind_cons_self]
    simp only [Option.map_some, Option.map_map]
    simp [List.length_append, List.length_reverse]
    omega
  have hslice : pySlice ((lstrip p ++ ('{' :: (mid ++ ['}']))) ++ rstrip q)
      (lstrip p).length ((lstrip p).length + mid.length + 1 + 1) = '{' :: (mid ++ ['}']) := by
    unfold pySlice
    have hk : (lstrip p).length + mid.length + 1 + 1
        = (lstrip p ++ ('{' :: (mid ++ ['}']))).length := by
      simp only [List.length_append, List.length_cons, List.length_nil]
      omega
    rw [hk, List.take_left, List.drop_left]
  have h1 : safe_parse_json ((p ++ ('{' :: (mid ++ ['}']))) ++ q) = some v := by
    have hne : ¬ ((p ++ ('{' :: (mid ++ ['}']))) ++ q = []) := by simp
    have hloadX : jsonLoads ((lstrip p ++ ('{' :: (mid ++ ['}']))) ++ rstrip q) = none := by
      rw [← hstripX]
      exact hstrict
    unfold safe_parse_json
    rw [if_neg hne]
    simp only [hstripX, hloadX, hfind, hrfind]
    rw [if_pos (by omega : (lstrip p).length < (lstrip p).length + mid.length + 1)]
    simp only [hslice, hs]
  have h2 : safe_parse_json ('{' :: (mid ++ ['}'])) = some v := by
    have hstrips : strip ('{' :: (mid ++ ['}'])) = '{' :: (mid ++ ['}']) := by
      unfold strip
      rw [lstrip_of_head _ _ hbrace]
      exact rstrip_of_last _ '}' _ hsrev hrbrace
    unfold safe_parse_json
    rw [if_neg (by simp)]
    simp only [hstrips, hs]
  exact ⟨h1, h2, by rw [h1, h2]⟩

/-- Witness for C3's amended theorem at a concrete reply: prose before and
after a `CandidateProfile` JSON object, neither containing braces. -/
theorem C3_repair_recovers_witness :
    safe_parse_json ("reply: ".toList ++
        ('{' :: ("\"candidate_name\":\"\",\"total_experience_years\":2,\"skills\":[],\"work_experience_summary\":\"x\"".toList
          ++ ['}'])) ++ " thanks".toList) =
      some (.jobj [("candidate_name".toList, .jstr []),
        ("total_experience_years".toList, .jnum 2),
        ("skills".toList, .jarr []),
        ("work_experience_summary".toList, .jstr "x".toList)]) ∧
    safe_parse_json ('{' :: ("\"candidate_name\":\"\",\"total_experience_years\":2,\"skills\":[],\"work_experience_summary\":\"x\"".toList
        ++ ['}'])) =
      some (.jobj [("candidate_name".toList, .jstr []),
        ("total_experience_years".toList, .jnum 2),
        ("skills".toList, .jarr []),
        ("work_experience_summary".toList, .jstr "x".toList)]) ∧
    (safe_parse_json ("reply: ".toList ++
        ('{' :: ("\"candidate_name\":\"\",\"total_experience_years\":2,\"skills\":[],\"work_experience_summary\":\"x\"".toList
          ++ ['}'])) ++ " thanks".toList)).bind CandidateProfile.model_validate =
      (safe_parse_json ('{' :: ("\"candidate_name\":\"\",\"total_experience_years\":2,\"skills\":[],\"work_experience_summary\":\"x\"".toList
          ++ ['}']))).bind CandidateProfile.model_validate :=
  C3_repair_recovers "reply: ".toList
    "\"candidate_name\":\"\",\"total_experience_years\":2,\"skills\":[],\"work_experience_summary\":\"x\"".toList
    " thanks".toList
    (.jobj [("candidate_name".toList, .jstr []),
      ("total_experience_years".toList, .jnum 2),
      ("skills".toList, .jarr []),
      ("work_experience_summary".toList, .jstr "x".toList)])
    (by decide) (by decide) rfl rfl

/-- The unparseable reply used in the C5 scenarios. -/
def rtBad : PyStr := "no json here".toList

/-- The C5 counterexample job-description text: a `"Responsibilities:"`
line, three bullet lines, and one further declarative line of ≥ 3 words. -/
def jdTextC5 : PyStr :=
  "Responsibilities:\n- a b\n- c d\n- e f\nJoin our great team".toList

/-- C5 counterexample: on a text CONTAINING the header and 3 bullets but
followed by another ≥3-word line, the heuristic also collects that fourth
line, so `core_responsibilities` is not exactly the 3 stripped bullets. -/
theorem C5_counterexample :
    parse_job_description true (.returns (some ⟨some rtBad, none, none, none⟩)) jdTextC5 =
      .ok ⟨"(parsed with fallback)".toList, [], [], 0,
        ["a b".toList, "c d".toList, "e f".toList, "Join our great team".toList]⟩ ∧
    ["a b".toList, "c d".toList, "e f".toList, "Join our great team".toList] ≠
      ["a b".toList, "c d".toList, "e f".toList] := by
  refine ⟨?_, ?_⟩
  · rfl
  · decide

/-- A usable bullet payload: non-empty, free of line breaks, and not
starting or ending in whitespace (`r.reverse.headI` is the last char). -/
def goodBullet (r : PyStr) : Prop :=
  r ≠ [] ∧ (∀ c ∈ r, ¬(c = '\n' ∨ c = '\r')) ∧
    isWs r.headI = false ∧ isWs r.reverse.headI = false

/-- A job description that is exactly a `"Responsibilities:"` line followed
by three bullet lines. -/
def jdText5 (r1 r2 r3 : PyStr) : PyStr :=
  "Responsibilities:\n- ".toList ++ r1 ++
    ("\n- ".toList ++ r2 ++ ("\n- ".toList ++ r3))

theorem splitLinesGo_sep (x y : PyStr) (acc : PyStr)
    (hx : ∀ c ∈ x, ¬(c = '\n' ∨ c = '\r')) (hy : y ≠ []) :
    splitLinesGo (x ++ '\n' :: y) acc = (acc.reverse ++ x) :: splitLinesGo y [] := by
  induction x generalizing acc with
  | nil =>
    show splitLinesGo ('\n' :: y) acc = _
    rw [show splitLinesGo ('\n' :: y) acc =
      (if ('\n' : Char) = '\n' ∨ ('\n' : Char) = '\r' then
        acc.reverse :: (if y = [] then [] else splitLinesGo y [])
      else splitLinesGo y ('\n' :: acc)) from rfl]
    rw [if_pos (Or.inl rfl), if_neg hy]
    simp
  | cons c cs ih =>
    have hc : ¬(c = '\n' ∨ c = '\r') := hx c (List.mem_cons_self c cs)
    have hcs : ∀ d ∈ cs, ¬(d = '\n' ∨ d = '\r') := fun d hd => hx d (List.mem_cons_of_mem c hd)
    rw [List.cons_append]
    rw [show splitLinesGo (c :: (cs ++ '\n' :: y)) acc =
      (if c = '\n' ∨ c = '\r' then
        acc.reverse :: (if cs ++ '\n' :: y = [] then [] else splitLinesGo (cs ++ '\n' :: y) [])
      else splitLinesGo (cs ++ '\n' :: y) (c :: acc)) from rfl]
    rw [if_neg hc, ih (c :: acc) hcs]
    simp

theorem splitLinesGo_nosep (x : PyStr) (acc : PyStr)
    (hx : ∀ c ∈ x, ¬(c = '\n' ∨ c = '\r')) :
    splitLinesGo x acc = [acc.reverse ++ x] := by
  induction x generalizing acc with
  | nil => simp [splitLinesGo]
  | cons c cs ih =>
    have hc : ¬(c = '\n' ∨ c = '\r') := hx c (List.mem_cons_self c cs)
    have hcs : ∀ d ∈ cs, ¬(d = '\n' ∨ d = '\r') := fun d hd => hx d (List.mem_cons_of_mem c hd)
    rw [show splitLinesGo (c :: cs) acc =
      (if c = '\n' ∨ c = '\r' then
        acc.reverse :: (if cs = [] then [] else splitLinesGo cs [])
      else splitLinesGo cs (c :: acc)) from rfl]
    rw [if_neg hc, ih (c :: acc) hcs]
    simp

theorem strip_bullet_line (r : PyStr) (h : goodBullet r) :
    strip ('-' :: (' ' :: r)) = '-' :: (' ' :: r) := by
  obtain ⟨hne, -, -, hlast⟩ := h
  unfold strip
  rw [lstrip_of_head '-' (' ' :: r) rfl]
  rcases hrev : r.reverse with _ | ⟨d, ds⟩
  · exact absurd (by simpa using congrArg List.reverse hrev) hne
  · have hd : isWs d = false := by
      rw [hrev] at hlast
      exact hlast
    have hrev2 : ('-' :: (' ' :: r)).reverse = d :: (ds ++ [' ', '-']) := by
      simp [hrev]
    exact rstrip_of_last _ d _ hrev2 hd

theorem bulletStrip_dash (r : PyStr) (h : goodBullet r) :
    bulletStrip ('-' :: (' ' :: r)) = r := by
  obtain ⟨hne, -, hhead, -⟩ := h
  show (if ('-' : Char) = '-' ∨ ('-' : Char) = '•' ∨ ('-' : Char) = '*'
    then (' ' :: r).dropWhile isWs else '-' :: (' ' :: r)) = r
  rw [if_pos (Or.inl rfl)]
  rw [show (' ' :: r).dropWhile isWs = r.dropWhile isWs from rfl]
  cases r with
  | nil => exact absurd rfl hne
  | cons d ds =>
    have hd : isWs d = false := hhead
    simp [List.dropWhile_cons, hd]

theorem searchHeader_jdText5 (r1 r2 r3 : PyStr) :
    searchHeader (jdText5 r1 r2 r3) =
      some ("- ".toList ++ r1 ++ ("\n- ".toList ++ r2 ++ ("\n- ".toList ++ r3))) := rfl

theorem heuristic_jdText5 (r1 r2 r3 : PyStr)
    (h1 : goodBullet r1) (h2 : goodBullet r2) (h3 : goodBullet r3)
    (hlen : r1.length + r2.length + r3.length + 8 ≤ 1000) :
    heuristic_extract_core_responsibilities_from_text (jdText5 r1 r2 r3) = [r1, r2, r3] := by
  have hrest : "- ".toList ++ r1 ++ ("\n- ".toList ++ r2 ++ ("\n- ".toList ++ r3)) =
      ("- ".toList ++ r1) ++ '\n' :: (("- ".toList ++ r2) ++ '\n' :: ("- ".toList ++ r3)) := by
    simp
  have hnosep : ∀ r : PyStr, goodBullet r →
      ∀ c ∈ "- ".toList ++ r, ¬(c = '\n' ∨ c = '\r') := by
    intro r hr c hc hcon
    rcases List.mem_append.mp hc with hm | hm
    · have hm2 : c = '-' ∨ c = ' ' := by simpa using hm
      rcases hm2 with rfl | rfl <;> rcases hcon with h | h <;>
        exact absurd h (by decide)
    · exact hr.2.1 c hm hcon
  have hsplit : splitLines
      (("- ".toList ++ r1) ++ '\n' :: (("- ".toList ++ r2) ++ '\n' :: ("- ".toList ++ r3))) =
      ["- ".toList ++ r1, "- ".toList ++ r2, "- ".toList ++ r3] := by
    rw [show ("- ".toList ++ r1) ++ '\n' :: (("- ".toList ++ r2) ++ '\n' :: ("- ".toList ++ r3))
      = '-' :: (' ' :: (r1 ++ '\n' :: (("- ".toList ++ r2) ++ '\n' :: ("- ".toList ++ r3))))
      by simp]
    rw [show splitLines
        ('-' :: (' ' :: (r1 ++ '\n' :: (("- ".toList ++ r2) ++ '\n' :: ("- ".toList ++ r3)))))
      = splitLinesGo
        ('-' :: (' ' :: (r1 ++ '\n' :: (("- ".toList ++ r2) ++ '\n' :: ("- ".toList ++ r3))))) []
      from rfl]
    rw [show '-' :: (' ' :: (r1 ++ '\n' :: (("- ".toList ++ r2) ++ '\n' :: ("- ".toList ++ r3))))
      = ("- ".toList ++ r1) ++ '\n' :: (("- ".toList ++ r2) ++ '\n' :: ("- ".toList ++ r3))
      by simp]
    rw [splitLinesGo_sep _ _ [] (hnosep r1 h1) (by simp)]
    rw [splitLinesGo_sep _ _ [] (hnosep r2 h2) (by simp)]
    rw [splitLinesGo_nosep _ [] (hnosep r3 h3)]
    simp
  unfold heuristic_extract_core_responsibilities_from_text
  rw [if_neg (by simp [jdText5] : ¬ jdText5 r1 r2 r3 = [])]
  rw [searchHeader_jdText5]
  have htake : ("- ".toList ++ r1 ++ ("\n- ".toList ++ r2 ++ ("\n- ".toList ++ r3))).take 1000
      = "- ".toList ++ r1 ++ ("\n- ".toList ++ r2 ++ ("\n- ".toList ++ r3)) := by
    refine List.take_of_length_le ?_
    have e1 : ("- ".toList : PyStr).length = 2 := rfl
    have e2 : ("\n- ".toList : PyStr).length = 3 := rfl
    simp only [List.length_append, e1, e2]
    omega
  have hlines : nonEmptyLines
      ("- ".toList ++ r1 ++ ("\n- ".toList ++ r2 ++ ("\n- ".toList ++ r3))) =
      ['-' :: ' ' :: r1, '-' :: ' ' :: r2, '-' :: ' ' :: r3] := by
    unfold nonEmptyLines
    rw [hrest, hsplit]
    simp [strip_bullet_line r1 h1, strip_bullet_line r2 h2, strip_bullet_line r3 h3,
      List.filter_cons]
  have hbul : ∀ r : PyStr, isBulletLine ('-' :: ' ' :: r) = true := fun r => rfl
  have hloop : bulletsLoop
      ['-' :: ' ' :: r1, '-' :: ' ' :: r2, '-' :: ' ' :: r3] [] = [r1, r2, r3] := by
    have e1 : bulletStrip ('-' :: (' ' :: r1)) = r1 := bulletStrip_dash r1 h1
    have e2 : bulletStrip ('-' :: (' ' :: r2)) = r2 := bulletStrip_dash r2 h2
    have e3 : bulletStrip ('-' :: (' ' :: r3)) = r3 := bulletStrip_dash r3 h3
    simp [bulletsLoop, hbul, e1, e2, e3]
  simp only [htake, hlines, hloop]
  simp

/-- C5 amended: when the reply is unparseable, a job description
CONSISTING of a `"Responsibilities:"` line followed by exactly 3 bullet
lines (and nothing else within the 1000-character window) yields
`core_responsibilities` equal to exactly those 3 bullet payloads in order,
markers stripped; extra qualifying lines after the bullets would also be
collected. -/
theorem C5_heuristic_three_bullets (r1 r2 r3 rt : PyStr)
    (h1 : goodBullet r1) (h2 : goodBullet r2) (h3 : goodBullet r3)
    (hlen : r1.length + r2.length + r3.length + 8 ≤ 1000)
    (hrt : safe_parse_json rt = none) (hrtne : rt ≠ []) :
    parse_job_description true (.returns (some ⟨some rt, none, none, none⟩))
        (jdText5 r1 r2 r3) =
      .ok ⟨"(parsed with fallback)".toList, [], [], 0, [r1, r2, r3]⟩ := by
  have hemp : rt.isEmpty = false := by
    cases rt with
    | nil => exact absurd rfl hrtne
    | cons a as => rfl
  have hext : extract_response_text (some ⟨some rt, none, none, none⟩) = some rt := by
    simp [extract_response_text, truthyStr, hemp]
  have hbody : jdTryBody (.returns (some ⟨some rt, none, none, none⟩)) (jdText5 r1 r2 r3)
      = .ok (jdHeuristicRecord (jdText5 r1 r2 r3)) := by
    simp only [jdTryBody, hext]
    rw [if_neg hrtne]
    simp only [hrt]
  have hrec : jdHeuristicRecord (jdText5 r1 r2 r3) =
      ⟨"(parsed with fallback)".toList, [], [], 0, [r1, r2, r3]⟩ := by
    unfold jdHeuristicRecord
    rw [heuristic_jdText5 r1 r2 r3 h1 h2 h3 hlen]
    simp
  simp [parse_job_description, hbody, hrec]

/-- Witness for C5's amended theorem at concrete bullets. -/
theorem C5_heuristic_three_bullets_witness :
    parse_job_description true (.returns (some ⟨some rtBad, none, none, none⟩))
        (jdText5 "a b".toList "c d".toList "e f".toList) =
      .ok ⟨"(parsed with fallback)".toList, [], [], 0,
        ["a b".toList, "c d".toList, "e f".toList]⟩ :=
  C5_heuristic_three_bullets "a b".toList "c d".toList "e f".toList rtBad
    (by refine ⟨by decide, ?_, by decide, by decide⟩; decide)
    (by refine ⟨by decide, ?_, by decide, by decide⟩; decide)
    (by refine ⟨by decide, ?_, by decide, by decide⟩; decide)
    (by decide) rfl (by decide)

/-- Witness for C10 at a concrete input: a short non-empty text. -/
theorem C10_short_text_guard_witness :
    itemRow true jrTriv ⟨"r.pdf".toList, none, "short".toList, .raises [], .raises []⟩ =
      systemErrorRow "r.pdf".toList shortTextMsg ∧
    itemRow true jrTriv ⟨"r.pdf".toList, none, "short".toList, .raises [], .raises []⟩ =
      itemRow true jrTriv
        ⟨"r.pdf".toList, none, "short".toList, .returns none, .returns none⟩ :=
  C10_short_text_guard true jrTriv "r.pdf".toList "short".toList (by decide)
    (.raises []) (.returns none) (.raises []) (.returns none)

end ResumeScreen
